import Mathlib

/-
Verification development for the SHP importer (src/SHPImporter.ts).

The TypeScript source is shallowly embedded: JavaScript numbers are modelled
as either a finite rational or a non-finite marker, `Date` objects as an
optional timestamp (none = invalid date), records as association lists that
preserve key insertion order, and the effectful host interactions (file
fetches, session begin/end, logging) as explicit event traces.
-/

set_option autoImplicit false

namespace Shp

/-- A JavaScript number: either finite (idealised as a rational) or one of
the non-finite values (`NaN`, `Infinity`, `-Infinity`), which the importer
only ever observes through `isFinite`. -/
inductive JSNum where
  | fin (q : Rat)
  | nonfinite
deriving DecidableEq, Repr

/-- Model of the JavaScript global `isFinite` used at SHPImporter.ts:99 and :352. -/
def jsIsFinite : JSNum → Bool
  | .fin _ => true
  | .nonfinite => false

/-- Model of `Number.isInteger` used at SHPImporter.ts:193. -/
def jsIsInteger : JSNum → Bool
  | .fin q => q.den = 1
  | .nonfinite => false

/-- Model of `number.toString()` producing the decimal string of a number. -/
def jsNumToString : JSNum → String
  | .fin q => toString q
  | .nonfinite => "NaN"

/-- A JavaScript `Date`: its `valueOf()` timestamp, or `none` for an invalid
date (whose `valueOf()` is `NaN`). -/
structure JSDate where
  timestamp : Option Int
deriving DecidableEq, Repr

/-- Negation of the `isNaN(date.valueOf())` test at SHPImporter.ts:113 and :365. -/
def dateIsValid (d : JSDate) : Bool := d.timestamp.isSome

/-- Model of `date.toLocaleString()`: some locale rendering of the timestamp.
The importer only ever compares this string with itself, so the concrete
rendering chosen here is irrelevant as long as it is a function of the date. -/
def dateToLocaleString (d : JSDate) : String :=
  match d.timestamp with
  | some t => toString t
  | none => "Invalid Date"

/-- The TypeScript union `PropertyValue = number | string | boolean | Date`
(SHPImporter.ts:46).  `typeof` dispatch in the source maps onto matching the
four constructors. -/
inductive PropertyValue where
  | num (n : JSNum)
  | str (s : String)
  | bool (b : Bool)
  | date (d : JSDate)
deriving DecidableEq, Repr

/-- The TypeScript union `PropertyType = 'number' | 'string' | 'boolean' | 'Date'`
(SHPImporter.ts:45). -/
inductive PropertyType where
  | number
  | string
  | boolean
  | date
deriving DecidableEq, Repr

/-- One catalogue entry: the inner `Record<PropertyType, PropertyValue>` of
SHPImporter.ts:95, holding at most one representative example per kind. -/
structure PropExamples where
  number : Option PropertyValue := none
  string : Option PropertyValue := none
  boolean : Option PropertyValue := none
  date : Option PropertyValue := none
deriving DecidableEq, Repr

/-- Read the example stored under one kind of a catalogue entry. -/
def getField (e : PropExamples) : PropertyType → Option PropertyValue
  | .number => e.number
  | .string => e.string
  | .boolean => e.boolean
  | .date => e.date

/-- Model of `examples[type] = value` on the inner record. -/
def setField (e : PropExamples) : PropertyType → PropertyValue → PropExamples
  | .number, v => { e with number := some v }
  | .string, v => { e with string := some v }
  | .boolean, v => { e with boolean := some v }
  | .date, v => { e with date := some v }

/-- The attribute catalogue `Record<string, Record<PropertyType, PropertyValue>>`,
modelled as an association list in key insertion order. -/
abbrev Catalogue := List (String × PropExamples)

/-- First entry stored under a field name, mirroring `propNames[propName]`. -/
def lookupEntry : Catalogue → String → Option PropExamples
  | [], _ => none
  | (k, e) :: rest, name => if k = name then some e else lookupEntry rest name

/-- Model of the two assignment branches at SHPImporter.ts:124-129: update the
existing entry in place, or append a fresh single-kind entry (JavaScript adds
new object keys at the end of the iteration order). -/
def updateEntry : Catalogue → String → PropertyType → PropertyValue → Catalogue
  | [], name, t, v => [(name, setField {} t v)]
  | (k, e) :: rest, name, t, v =>
    if k = name then (k, setField e t v) :: rest
    else (k, e) :: updateEntry rest name t v

/-- The example catalogued for `name` under kind `t`, if any. -/
def getExample (c : Catalogue) (name : String) (t : PropertyType) : Option PropertyValue :=
  match lookupEntry c name with
  | none => none
  | some e => getField e t

/-- Embedding of `addPropName` (SHPImporter.ts:95-130).  The `typeof` switch:
a number is kept only when finite; a string only when non-empty, and its
stored example is wrapped in literal quotes; everything else reaches the
`default` branch, where only a `Date` with a valid timestamp assigns a type
(stored as its locale string) — a boolean leaves `type` undefined, so the
function returns with the catalogue untouched. -/
def addPropName (propNames : Catalogue) (propName : String) (propValue : PropertyValue) : Catalogue :=
  match propValue with
  | .num n =>
    if jsIsFinite n then updateEntry propNames propName .number (.num n) else propNames
  | .str s =>
    if s.length = 0 then propNames
    else updateEntry propNames propName .string (.str ("\"" ++ s ++ "\""))
  | .bool _ => propNames
  | .date d =>
    if dateIsValid d then updateEntry propNames propName .date (.str (dateToLocaleString d))
    else propNames

/-- A 3-component coordinate after uplift, the `vec3` of the host API. -/
structure Vec3 where
  x : Rat
  y : Rat
  z : Rat
deriving DecidableEq, Repr

/-- A raw GeoJSON coordinate, the union `vec2 | vec3` of SHPImporter.ts:19. -/
inductive Vec where
  | v2 (x y : Rat)
  | v3 (x y z : Rat)
deriving DecidableEq, Repr

/-- Embedding of `coordinatesToVec3` (SHPImporter.ts:229-231): right-pad a 2D
coordinate with `z = 0`, copy a 3D one. -/
def coordinatesToVec3 : Vec → Vec3
  | .v2 a b => ⟨a, b, 0⟩
  | .v3 a b c => ⟨a, b, c⟩

/-- The fixed scale constant of SHPImporter.ts:233. -/
def SCALE : Rat := 1

/-- Embedding of `scaleCoordinates` (SHPImporter.ts:235-240): multiply every
component by `SCALE`.  (The source mutates its argument in place; the callers
below write the returned value wherever the source writes it back.) -/
def scaleCoordinates (c : Vec3) : Vec3 := ⟨c.x * SCALE, c.y * SCALE, c.z * SCALE⟩

/-- A padded, scaled coordinate stored back into a raw coordinate slot, as the
in-place assignments `coordinates[i] = scaleCoordinates(coordinatesToVec3(...))`
leave a 3-element array in the coordinate array. -/
def vec3ToVec (c : Vec3) : Vec := .v3 c.x c.y c.z

/-- The padding-then-scaling applied to every coordinate the mapper emits. -/
def padScale (c : Vec) : Vec3 := scaleCoordinates (coordinatesToVec3 c)

/-- The tagged `Geometry` union of SHPImporter.ts:17-43. -/
inductive Geometry where
  | point (coordinates : Vec)
  | lineString (coordinates : List Vec)
  | polygon (coordinates : List (List Vec))
  | multiPoint (coordinates : List Vec)
  | multiLineString (coordinates : List (List Vec))
  | multiPolygon (coordinates : List (List (List Vec)))
deriving DecidableEq, Repr

/-- A primitive-creation request against the entity editor (`addCircle`,
`addLine`, `addPolyline3d`). -/
inductive Primitive where
  | circle (center : Vec3) (radius : Rat)
  | line (a b : Vec3)
  | polyline3d (vertices : List Vec3)
deriving DecidableEq, Repr

/-- The in-place rewrite loop `for i: coordinates[i] = scaleCoordinates(coordinatesToVec3(coordinates[i]))`
run over one coordinate array, yielding the `vec3[]` handed to `addPolyline3d`. -/
def mutateRing (ring : List Vec) : List Vec3 := ring.map padScale

/-- One `MultiLineString` component (SHPImporter.ts:299-319): two coordinates
make a line from fresh padded copies, any other count makes a polyline from the
rewritten array.  (The `length === 2` test is rendered as the `[a, b]` pattern.) -/
def mlsComponentPrim : List Vec → Primitive
  | [a, b] => .line (padScale a) (padScale b)
  | cs => .polyline3d (mutateRing cs)

/-- What one `MultiLineString` component's coordinate array holds afterwards:
untouched in the two-point case, rewritten otherwise. -/
def mlsComponentPost : List Vec → List Vec
  | [a, b] => [a, b]
  | cs => (mutateRing cs).map vec3ToVec

/-- Embedding of `featureGeometry` (SHPImporter.ts:242-342) as a function from
the input geometry to the emitted primitives (in emission order) together with
the geometry value as left behind by the source's in-place coordinate writes. -/
def featureGeometry : Geometry → List Primitive × Geometry
  | .point c => ([.circle (padScale c) ((5 : Rat) / 1000)], .point c)
  | .lineString cs =>
    match cs with
    | [a, b] => ([.line (padScale a) (padScale b)], .lineString [a, b])
    | cs => ([.polyline3d (mutateRing cs)], .lineString ((mutateRing cs).map vec3ToVec))
  | .polygon rings =>
    (rings.map (fun r => .polyline3d (mutateRing r)),
     .polygon (rings.map (fun r => (mutateRing r).map vec3ToVec)))
  | .multiPoint cs =>
    (cs.map (fun c => .circle (padScale c) ((5 : Rat) / 1000)), .multiPoint cs)
  | .multiLineString comps =>
    (comps.map mlsComponentPrim, .multiLineString (comps.map mlsComponentPost))
  | .multiPolygon ps =>
    ((ps.map (fun rings => rings.map (fun r => Primitive.polyline3d (mutateRing r)))).flatten,
     .multiPolygon (ps.map (fun rings => rings.map (fun r => (mutateRing r).map vec3ToVec))))

/-- The input geometry's coordinates flattened in traversal order. -/
def vecList : Geometry → List Vec
  | .point c => [c]
  | .lineString cs => cs
  | .polygon rings => rings.flatten
  | .multiPoint cs => cs
  | .multiLineString comps => comps.flatten
  | .multiPolygon ps => (ps.map List.flatten).flatten

/-- The coordinates carried by one primitive, in order. -/
def primCoords : Primitive → List Vec3
  | .circle c _ => [c]
  | .line a b => [a, b]
  | .polyline3d vs => vs

/-- All coordinates of all primitives emitted for a geometry, in order. -/
def emittedCoords (g : Geometry) : List Vec3 :=
  ((featureGeometry g).1.map primCoords).flatten

/-- A feature's attribute map `Record<string, PropertyValue>`, in key order. -/
abbrev Props := List (String × PropertyValue)

/-- Model of `properties[name]`: the first value stored under a key. -/
def lookupProp : Props → String → Option PropertyValue
  | [], _ => none
  | (k, v) :: rest, name => if k = name then some v else lookupProp rest name

/-- One typed property object (`DwgTypedObject` value) as built by
`featurePropValue`: the `$value` payload together with the `$type` tag. -/
structure DwgProp where
  value : PropertyValue
  ptype : Option String
deriving DecidableEq, Repr

/-- Embedding of `featurePropValue` (SHPImporter.ts:188-219).  The untyped
`default` arm for non-`Date` objects is unreachable here because
`PropertyValue` is exactly the four-way union of SHPImporter.ts:46. -/
def featurePropValue : PropertyValue → DwgProp
  | .num n => { value := .num n, ptype := some (if jsIsInteger n then "int" else "float") }
  | .str s => { value := .str s, ptype := some "string" }
  | .bool b => { value := .bool b, ptype := some "bool" }
  | .date d => { value := .str (dateToLocaleString d), ptype := some "string" }

/-- Embedding of `featureProps` (SHPImporter.ts:221-227): convert every raw
attribute to a typed property object, keeping key order. -/
def featureProps (rawProps : Props) : List (String × DwgProp) :=
  rawProps.map (fun p => (p.1, featurePropValue p.2))

/-- The value held by the `name` key of a layer-data object: either a plain
string written by `assignLayerName`, or the typed property object that
`featureProps` copied from an attribute literally called `name`. -/
inductive LayerNameVal where
  | strName (s : String)
  | typedName (p : DwgProp)
deriving DecidableEq, Repr

/-- The layer-data object handed to `drawing.layers.add`, restricted to the
parts the importer manipulates: the converted properties and the `name` key. -/
structure LayerData where
  props : List (String × DwgProp)
  name : Option LayerNameVal
deriving DecidableEq, Repr

/-- The layer-data object as it stands after `featureProps` in `loadFeature`
(SHPImporter.ts:382): its `name` key is defined exactly when the feature's
attribute map has a field called `name`. -/
def layerDataOf (rawProps : Props) : LayerData :=
  { props := featureProps rawProps,
    name := (lookupProp rawProps "name").map (fun v => .typedName (featurePropValue v)) }

/-- The shared fallback counter `layerIDs` (SHPImporter.ts:455). -/
structure LayerIDs where
  next : Nat
deriving DecidableEq, Repr

/-- The candidate scan inside `assignLayerName` (SHPImporter.ts:346-374).
An undefined property moves to the next candidate; a non-finite number, empty
string or invalid date hits `continue`; a usable value is formatted, assigned
and ends the loop via the trailing `break`.  A defined value of any other kind
(a boolean) falls into the switch's `default` arm, assigns nothing, and then
the same unconditional `break` ends the loop with no name — hence `none`. -/
def scanName (properties : Props) : List String → Option String
  | [] => none
  | candidate :: rest =>
    match lookupProp properties candidate with
    | none => scanName properties rest
    | some v =>
      match v with
      | .num n => if jsIsFinite n then some (jsNumToString n) else scanName properties rest
      | .str s => if s.length = 0 then scanName properties rest else some s
      | .date d => if dateIsValid d then some (dateToLocaleString d) else scanName properties rest
      | .bool _ => none

/-- Embedding of `assignLayerName` (SHPImporter.ts:344-379): everything is
guarded by `layerData.name === undefined`; when the scan produces no name the
fallback `(++layerIDs.next).toString()` is assigned. -/
def assignLayerName (layerData : LayerData) (properties : Props)
    (layerNames : List String) (layerIDs : LayerIDs) : LayerData × LayerIDs :=
  match layerData.name with
  | some _ => (layerData, layerIDs)
  | none =>
    match scanName properties layerNames with
    | some s => ({ layerData with name := some (.strName s) }, layerIDs)
    | none =>
      ({ layerData with name := some (.strName (toString (layerIDs.next + 1))) },
       { next := layerIDs.next + 1 })

/-- A decoded feature (geometry plus attribute map), SHPImporter.ts:48-52. -/
structure Feature where
  geometry : Geometry
  properties : Props
deriving DecidableEq, Repr

/-- The observable outcome of `loadFeature` for one feature: the leaf layer's
data, its disabled flag, and the primitives attached to it. -/
structure LoadedLayer where
  data : LayerData
  disabled : Bool
  primitives : List Primitive
deriving DecidableEq, Repr

/-- Embedding of `loadFeature` (SHPImporter.ts:381-389): build the typed
property object, assign the layer name (threading the counter), create the
disabled leaf layer and attach the mapped geometry. -/
def loadFeature (feature : Feature) (layerNames : List String)
    (layerIDs : LayerIDs) : LoadedLayer × LayerIDs :=
  let layerData := layerDataOf feature.properties
  let named := assignLayerName layerData feature.properties layerNames layerIDs
  let mapped := featureGeometry feature.geometry
  ({ data := named.1, disabled := true, primitives := mapped.1 }, named.2)

/-- The per-feature loop of `loadShapes` (SHPImporter.ts:410-422) over one
dataset's features, threading the shared counter left to right. -/
def processFeatures (features : List Feature) (layerNames : List String)
    (layerIDs : LayerIDs) : List LoadedLayer × LayerIDs :=
  match features with
  | [] => ([], layerIDs)
  | f :: rest =>
    let first := loadFeature f layerNames layerIDs
    let later := processFeatures rest layerNames first.2
    (first.1 :: later.1, later.2)

/-- A feature takes the fallback name exactly when its attribute map has no
field called `name` and the candidate scan produces nothing. -/
def isFallback (layerNames : List String) (f : Feature) : Bool :=
  (lookupProp f.properties "name").isNone && (scanName f.properties layerNames).isNone

/-- Declarative restatement of the candidate scan, written from the amended
claim: classify one candidate's value as a usable formatted name, a value to
skip past, or a value that stops the scan with no name. -/
inductive ScanOutcome where
  | useName (s : String)
  | skipOver
  | stopScan
deriving DecidableEq, Repr

/-- Classification of one candidate lookup per the amended derivation rule:
a missing field, non-finite number, empty text or invalid date is skipped;
a finite number, non-empty text or valid date yields its formatted name;
a defined value of any other kind (a boolean) stops the scan. -/
def candidateOutcome : Option PropertyValue → ScanOutcome
  | none => .skipOver
  | some (.num n) => if jsIsFinite n then .useName (jsNumToString n) else .skipOver
  | some (.str s) => if s.length = 0 then .skipOver else .useName s
  | some (.date d) => if dateIsValid d then .useName (dateToLocaleString d) else .skipOver
  | some (.bool _) => .stopScan

/-- The derivation rule stated declaratively: drop the skipped candidates,
then the first remaining candidate decides the outcome — its formatted value
when usable, no name when it stops the scan. -/
def deriveNameSpec (properties : Props) (candidates : List String) : Option String :=
  match candidates.dropWhile
      (fun c => candidateOutcome (lookupProp properties c) == ScanOutcome.skipOver) with
  | [] => none
  | c :: _ =>
    match candidateOutcome (lookupProp properties c) with
    | .useName s => some s
    | _ => none

/-- An event observable during the file-grouping phase. -/
inductive GEvent where
  | getEv (title : String)
  | detailEv (title : String)
  | extErrorEv (extension : String)
deriving DecidableEq, Repr

/-- Is this grouping event the unsupported-extension warning? -/
def isExtError : GEvent → Bool
  | .extErrorEv _ => true
  | _ => false

/-- One dataset under construction: buffers keyed by extension (a `ShapeGroup`
object), modelled by key insertion order with byte buffers as opaque ids. -/
abbrev ShapeGroup := List (String × Nat)

/-- All datasets keyed by base name, in first-seen order. -/
abbrev Groups := List (String × ShapeGroup)

/-- The recognised extension set (SHPImporter.ts:61). -/
def ALLOWED : List String :=
  ["shp", "dbf", "shx", "sbn", "sbx", "aih", "ain", "prj", "cpg", "idx"]

/-- Model of `group[extension] = bytes`: overwrite the existing key or append. -/
def setKey : ShapeGroup → String → Nat → ShapeGroup
  | [], k, v => [(k, v)]
  | (k0, v0) :: rest, k, v =>
    if k0 = k then (k0, v) :: rest else (k0, v0) :: setKey rest k v

/-- Model of `groups[name]`. -/
def groupsLookup : Groups → String → Option ShapeGroup
  | [], _ => none
  | (k, g) :: rest, name => if k = name then some g else groupsLookup rest name

/-- Model of `groups[name] = group`: overwrite or append at the end. -/
def setGroup : Groups → String → ShapeGroup → Groups
  | [], name, g => [(name, g)]
  | (k, g0) :: rest, name, g =>
    if k = name then (k, g) :: rest else (k, g0) :: setGroup rest name g

/-- Embedding of `addToGroups` (SHPImporter.ts:63-79) for one file, returning
the updated datasets and the events in program order: the byte buffer is
fetched (`await item.get()`) and the progress detail set before the extension
is even computed; an unrecognised extension then logs one warning and returns
with the datasets untouched; otherwise the buffer is stored under the
extension key of the dataset named by the base name, created on first sight. -/
def addToGroups (groups : Groups) (title : String) (bytes : Nat) : Groups × List GEvent :=
  let fetched : List GEvent := [.getEv title, .detailEv title]
  let name := title.take (title.length - 4)
  let ext := title.drop (title.length - 3)
  if ALLOWED.contains ext then
    let group := match groupsLookup groups name with
      | none => []
      | some g => g
    (setGroup groups name (setKey group ext bytes), fetched)
  else
    (groups, fetched ++ [.extErrorEv ext])

/-- A workspace item: a leaf file (with its buffer id) or a folder. -/
inductive WorkspaceItem where
  | file (title : String) (bytes : Nat)
  | folder (children : List WorkspaceItem)

mutual

/-- Embedding of the per-item dispatch of `extractGroups` (SHPImporter.ts:81-93):
folders recurse into their listing, anything else goes through `addToGroups`. -/
def extractItem (groups : Groups) : WorkspaceItem → Groups × List GEvent
  | .file title bytes => addToGroups groups title bytes
  | .folder children => extractList groups children

/-- The sequential loop of `extractGroups` over a listing. -/
def extractList (groups : Groups) : List WorkspaceItem → Groups × List GEvent
  | [] => (groups, [])
  | item :: rest =>
    let first := extractItem groups item
    let later := extractList first.1 rest
    (later.1, first.2 ++ later.2)

end

/-- An event observable during a whole import run. -/
inductive IEvent where
  | beginProgressEv
  | infoEv
  | propfindEv
  | decodeEv
  | quickPickEv
  | beginUpdateEv
  | beginEditEv
  | endUpdateEv
  | endEditEv
  | addLayerEv
  | addEntityEv
  | uncaughtErrorEv
  | endProgressEv
deriving DecidableEq, Repr

/-- A run fragment: the events it emits plus its outcome (normal completion or
a thrown exception carried as a message). -/
def Tr (α : Type) : Type := List IEvent × Except String α

/-- A fragment that emits nothing and completes. -/
def pureTr {α : Type} (a : α) : Tr α := ([], .ok a)

/-- Emit one event. -/
def emit (e : IEvent) : Tr Unit := ([e], .ok ())

/-- Sequence two fragments: a thrown exception skips the continuation. -/
def bindTr {α β : Type} (m : Tr α) (f : α → Tr β) : Tr β :=
  match m with
  | (t, .error e) => (t, .error e)
  | (t, .ok a) =>
    let r := f a
    (t ++ r.1, r.2)

/-- JavaScript `try`/`finally`: the finaliser always runs; if it completes,
the body's outcome (value or exception) stands. -/
def tryFinallyTr {α : Type} (body : Tr α) (fin : Tr Unit) : Tr α :=
  match fin.2 with
  | .error e => (body.1 ++ fin.1, .error e)
  | .ok _ => (body.1 ++ fin.1, body.2)

/-- JavaScript `try`/`catch`: a thrown exception is handed to the handler. -/
def tryCatchTr {α : Type} (body : Tr α) (handler : String → Tr α) : Tr α :=
  match body with
  | (t, .ok a) => (t, .ok a)
  | (t, .error e) =>
    let h := handler e
    (t ++ h.1, h.2)

/-- The `Writing` section of `SHPImporter.import` (SHPImporter.ts:456-469):
`beginUpdate`, `beginEdit`, then the body (root-layer creation and
`loadShapes`, abstracted as `body`) inside `try { .. } finally { endUpdate;
endEdit }`. -/
def writingSection (body : Tr Unit) : Tr Unit :=
  bindTr (emit .beginUpdateEv) (fun _ =>
  bindTr (emit .beginEditEv) (fun _ =>
  tryFinallyTr body (bindTr (emit .endUpdateEv) (fun _ => emit .endEditEv))))

/-- Trace of one whole `SHPImporter.import` run (SHPImporter.ts:435-475).
`hasModelLayout` mirrors the `drawing.layouts?.model === undefined` early
return; the phases before the write session (traversal, decoding, the user
prompt) are abstracted as single events, and `body` stands for everything
inside the inner `try`.  The top-level `catch` logs the exception; the outer
`finally` always ends the progress indicator. -/
def importTrace (hasModelLayout : Bool) (body : Tr Unit) : List IEvent :=
  let main : Tr Unit :=
    bindTr (emit .infoEv) (fun _ =>
      if hasModelLayout then
        bindTr (emit .propfindEv) (fun _ =>
        bindTr (emit .decodeEv) (fun _ =>
        bindTr (emit .quickPickEv) (fun _ =>
        writingSection body)))
      else pureTr ())
  let caught := tryCatchTr main (fun _ => emit .uncaughtErrorEv)
  .beginProgressEv :: caught.1 ++ [.endProgressEv]

theorem lookupEntry_updateEntry_self (c : Catalogue) (name : String)
    (t : PropertyType) (v : PropertyValue) :
    ∃ e, lookupEntry (updateEntry c name t v) name = some (setField e t v) := by
  induction c with
  | nil => exact ⟨{}, by simp [updateEntry, lookupEntry]⟩
  | cons hd tl ih =>
    by_cases h : hd.1 = name
    · exact ⟨hd.2, by simp [updateEntry, lookupEntry, h]⟩
    · obtain ⟨e, he⟩ := ih
      exact ⟨e, by simp [updateEntry, lookupEntry, h, he]⟩

theorem getField_setField_self (e : PropExamples) (t : PropertyType) (v : PropertyValue) :
    getField (setField e t v) t = some v := by
  cases t <;> rfl

theorem getExample_updateEntry_self (c : Catalogue) (name : String)
    (t : PropertyType) (v : PropertyValue) :
    getExample (updateEntry c name t v) name t = some v := by
  obtain ⟨e, he⟩ := lookupEntry_updateEntry_self c name t v
  simp [getExample, he, getField_setField_self]

theorem padScale_eq_pad (c : Vec) : padScale c = coordinatesToVec3 c := by
  simp [padScale, scaleCoordinates, SCALE]

theorem flatten_map_singleton {α β : Type} (l : List α) (f : α → β) :
    (l.map (fun a => [f a])).flatten = l.map f := by
  induction l with
  | nil => rfl
  | cons a t ih => simp [ih]

theorem primCoords_mlsComponentPrim (cs : List Vec) :
    primCoords (mlsComponentPrim cs) = cs.map padScale := by
  match cs with
  | [] => rfl
  | [a] => rfl
  | [a, b] => rfl
  | a :: b :: x :: t => rfl

/-- C3 counterexample: scanning a boolean attribute value leaves the catalogue
unchanged — the field gets no entry at all, so no boolean example is recorded. -/
theorem c3_counterexample :
    addPropName ([] : Catalogue) "flag" (.bool true) = ([] : Catalogue) ∧
    getExample (addPropName ([] : Catalogue) "flag" (.bool true)) "flag" .boolean = none := by
  exact ⟨rfl, rfl⟩

/-- C3 (amended): a boolean attribute value is never catalogued — `addPropName`
returns the catalogue untouched for every boolean input, because the `typeof`
switch leaves `type` undefined for booleans. -/
theorem c3_theorem (cat : Catalogue) (name : String) (b : Bool) :
    addPropName cat name (.bool b) = cat := rfl

/-- C4: a numeric value is catalogued iff finite; a text value iff non-empty,
with its example wrapped in literal quotes; a date value iff it has a valid
timestamp, with its example stored as its locale string.  Each invalid value
leaves the whole catalogue unchanged. -/
theorem c4_theorem (cat : Catalogue) (name : String) :
    (∀ n : JSNum,
      getExample (addPropName cat name (.num n)) name .number
        = if jsIsFinite n then some (.num n) else getExample cat name .number) ∧
    (∀ n : JSNum, jsIsFinite n = false → addPropName cat name (.num n) = cat) ∧
    (∀ s : String,
      getExample (addPropName cat name (.str s)) name .string
        = if s.length = 0 then getExample cat name .string
          else some (.str ("\"" ++ s ++ "\""))) ∧
    (∀ s : String, s.length = 0 → addPropName cat name (.str s) = cat) ∧
    (∀ d : JSDate,
      getExample (addPropName cat name (.date d)) name .date
        = if dateIsValid d then some (.str (dateToLocaleString d))
          else getExample cat name .date) ∧
    (∀ d : JSDate, dateIsValid d = false → addPropName cat name (.date d) = cat) := by
  refine ⟨?_, ?_, ?_, ?_, ?_, ?_⟩
  · intro n
    by_cases h : jsIsFinite n <;> simp [addPropName, h, getExample_updateEntry_self]
  · intro n h
    simp [addPropName, h]
  · intro s
    by_cases h : s.length = 0 <;> simp [addPropName, h, getExample_updateEntry_self]
  · intro s h
    simp [addPropName, h]
  · intro d
    by_cases h : dateIsValid d <;> simp [addPropName, h, getExample_updateEntry_self]
  · intro d h
    simp [addPropName, h]

/-- Witness for C4 at concrete inputs: a finite number, a non-finite number,
a non-empty and an empty string, a valid and an invalid date. -/
theorem c4_witness :
    getExample (addPropName ([] : Catalogue) "area" (.num (.fin 3))) "area" .number
      = some (.num (.fin 3)) ∧
    addPropName ([] : Catalogue) "area" (.num .nonfinite) = ([] : Catalogue) ∧
    getExample (addPropName ([] : Catalogue) "label" (.str "Lot 1")) "label" .string
      = some (.str "\"Lot 1\"") ∧
    addPropName ([] : Catalogue) "label" (.str "") = ([] : Catalogue) ∧
    getExample (addPropName ([] : Catalogue) "seen" (.date ⟨some 10⟩)) "seen" .date
      = some (.str "10") ∧
    addPropName ([] : Catalogue) "seen" (.date ⟨none⟩) = ([] : Catalogue) := by
  refine ⟨?_, ?_, ?_, ?_, ?_, ?_⟩
  · have h := (c4_theorem ([] : Catalogue) "area").1 (.fin 3)
    simpa [jsIsFinite] using h
  · exact (c4_theorem ([] : Catalogue) "area").2.1 .nonfinite rfl
  · have h := (c4_theorem ([] : Catalogue) "label").2.2.1 "Lot 1"
    simpa using h
  · exact (c4_theorem ([] : Catalogue) "label").2.2.2.1 "" rfl
  · have h := (c4_theorem ([] : Catalogue) "seen").2.2.2.2.1 ⟨some 10⟩
    simpa [dateIsValid, dateToLocaleString] using h
  · exact (c4_theorem ([] : Catalogue) "seen").2.2.2.2.2 ⟨none⟩ rfl

/-- C5 counterexample: mapping a three-point 2D `LineString` rewrites the
input geometry's coordinate array in place (every pair becomes a padded,
scaled triple), so the input geometry is not left unchanged. -/
theorem c5_counterexample :
    (featureGeometry (.lineString [.v2 1 2, .v2 3 4, .v2 5 6])).2
      ≠ .lineString [.v2 1 2, .v2 3 4, .v2 5 6] := by
  decide

/-- Each coordinate after the in-place rewrite loop: padded then scaled,
stored back as a 3-component coordinate. -/
def rewriteCoords (cs : List Vec) : List Vec :=
  cs.map (fun c => vec3ToVec (padScale c))

/-- Modelled from the amended claim: which coordinate arrays the mapper leaves
behind — `Point` and `MultiPoint` untouched, two-point line components
untouched, every other coordinate array overwritten with its padded and
scaled 3-component form. -/
def mutatedGeometry : Geometry → Geometry
  | .point c => .point c
  | .lineString cs =>
    if cs.length = 2 then .lineString cs else .lineString (rewriteCoords cs)
  | .polygon rings => .polygon (rings.map rewriteCoords)
  | .multiPoint cs => .multiPoint cs
  | .multiLineString comps =>
    .multiLineString (comps.map (fun cs => if cs.length = 2 then cs else rewriteCoords cs))
  | .multiPolygon ps => .multiPolygon (ps.map (fun rings => rings.map rewriteCoords))

theorem mlsComponentPost_eq (cs : List Vec) :
    mlsComponentPost cs = if cs.length = 2 then cs else rewriteCoords cs := by
  match cs with
  | [] => rfl
  | [a] => rfl
  | [a, b] => rfl
  | a :: b :: x :: t =>
    simp [mlsComponentPost, rewriteCoords, mutateRing, List.map_map, Function.comp]

/-- C5 (amended): the Geometry Mapper is pure for `Point` and `MultiPoint`
geometries and for line components with exactly two coordinates, but for
`LineString`s of any other length, every `Polygon` ring, `MultiLineString`
components of any other length and every `MultiPolygon` ring it overwrites the
input coordinate array with the padded, scaled 3-component coordinates. -/
theorem c5_theorem (g : Geometry) :
    (featureGeometry g).2 = mutatedGeometry g := by
  cases g with
  | point c => rfl
  | lineString cs =>
    match cs with
    | [] => rfl
    | [a] =>
      simp [featureGeometry, mutatedGeometry, rewriteCoords, mutateRing]
    | [a, b] => rfl
    | a :: b :: x :: t =>
      simp [featureGeometry, mutatedGeometry, rewriteCoords, mutateRing,
        List.map_map, Function.comp]
  | polygon rings =>
    simp [featureGeometry, mutatedGeometry, rewriteCoords, mutateRing,
      List.map_map, Function.comp]
  | multiPoint cs => rfl
  | multiLineString comps =>
    simp [featureGeometry, mutatedGeometry, mlsComponentPost_eq]
  | multiPolygon ps =>
    simp [featureGeometry, mutatedGeometry, rewriteCoords, mutateRing,
      List.map_map, Function.comp]

/-- C6: every coordinate of every emitted primitive is the corresponding input
coordinate right-padded with `z = 0` and multiplied by the scale constant, in
traversal order; and since `SCALE = 1`, this is the identity beyond padding. -/
theorem c6_theorem (g : Geometry) :
    emittedCoords g = (vecList g).map padScale ∧
    emittedCoords g = (vecList g).map coordinatesToVec3 := by
  have hpad : (vecList g).map padScale = (vecList g).map coordinatesToVec3 := by
    simp [padScale_eq_pad]
  have h1 : emittedCoords g = (vecList g).map padScale := ?_
  · exact ⟨h1, h1.trans hpad⟩
  cases g with
  | point c => rfl
  | lineString cs =>
    match cs with
    | [] => rfl
    | [a] => rfl
    | [a, b] => rfl
    | a :: b :: x :: t => simp [emittedCoords, featureGeometry, vecList, mutateRing, primCoords]
  | polygon rings =>
    simp [emittedCoords, featureGeometry, vecList, mutateRing, primCoords,
      List.map_flatten, List.map_map, Function.comp_def]
  | multiPoint cs =>
    simp only [emittedCoords, featureGeometry, vecList, List.map_map,
      Function.comp_def, primCoords]
    exact flatten_map_singleton cs padScale
  | multiLineString comps =>
    simp [emittedCoords, featureGeometry, vecList, List.map_map, Function.comp_def,
      primCoords_mlsComponentPrim, List.map_flatten]
  | multiPolygon ps =>
    simp [emittedCoords, featureGeometry, vecList, List.map_map, Function.comp_def,
      primCoords, List.map_flatten, ← List.flatten_flatten, mutateRing]

theorem loadFeature_counter (f : Feature) (layerNames : List String) (c : Nat) :
    (loadFeature f layerNames ⟨c⟩).2.next
      = c + (if isFallback layerNames f then 1 else 0) := by
  unfold loadFeature assignLayerName isFallback layerDataOf
  cases h1 : lookupProp f.properties "name" with
  | some v => simp [h1]
  | none =>
    cases h2 : scanName f.properties layerNames with
    | some s => simp [h1, h2]
    | none => simp [h1, h2]

theorem processFeatures_counter (fs : List Feature) (layerNames : List String) (c : Nat) :
    (processFeatures fs layerNames ⟨c⟩).2.next
      = c + fs.countP (isFallback layerNames) := by
  induction fs generalizing c with
  | nil => simp [processFeatures]
  | cons f rest ih =>
    have h1 := loadFeature_counter f layerNames c
    have h2 := ih ((loadFeature f layerNames ⟨c⟩).2.next)
    simp only [processFeatures]
    have heta : (loadFeature f layerNames ⟨c⟩).2
        = (⟨(loadFeature f layerNames ⟨c⟩).2.next⟩ : LayerIDs) := rfl
    rw [heta] at *
    rw [h2, h1, List.countP_cons]
    by_cases hf : isFallback layerNames f = true
    · simp [hf]
      omega
    · simp [hf]

/-- C1 counterexample: a feature carrying an attribute literally named `name`
(here an unusable boolean) with no approved candidates never reaches the
fallback rule — the counter stays at 0 and the leaf layer's `name` is the
typed property object copied by `featureProps`, not the string `"1"`. -/
theorem c1_counterexample :
    (loadFeature ⟨.point (.v2 0 0), [("name", .bool false)]⟩ [] ⟨0⟩).2.next = 0 ∧
    (loadFeature ⟨.point (.v2 0 0), [("name", .bool false)]⟩ [] ⟨0⟩).1.data.name
      ≠ some (.strName "1") := by
  decide

/-- C1 (amended): for every feature whose attribute map has no field literally
named `name` (so `layerData.name` starts undefined) and whose candidate scan
yields nothing, the assigned leaf-layer name is the counter value immediately
before the feature plus 1, as a decimal string, and the shared counter
increases by exactly 1; across any feature sequence the counter, threaded from
its initial value, ends at that value plus the number of fallback features
(it is never reset mid-run). -/
theorem c1_theorem (g : Geometry) (props : Props) (layerNames : List String)
    (c : Nat) (fs : List Feature)
    (hname : lookupProp props "name" = none)
    (hscan : scanName props layerNames = none) :
    (loadFeature ⟨g, props⟩ layerNames ⟨c⟩).1.data.name
      = some (.strName (toString (c + 1))) ∧
    (loadFeature ⟨g, props⟩ layerNames ⟨c⟩).2.next = c + 1 ∧
    (processFeatures fs layerNames ⟨c⟩).2.next
      = c + fs.countP (isFallback layerNames) := by
  refine ⟨?_, ?_, processFeatures_counter fs layerNames c⟩
  · unfold loadFeature assignLayerName layerDataOf
    simp [hname, hscan]
  · unfold loadFeature assignLayerName layerDataOf
    simp [hname, hscan]

/-- Witness for C1 at a concrete feature with empty attributes and no
candidates, starting from the freshly initialised counter value 0. -/
theorem c1_witness :
    (loadFeature ⟨.point (.v2 0 0), []⟩ [] ⟨0⟩).1.data.name
      = some (.strName "1") ∧
    (loadFeature ⟨.point (.v2 0 0), []⟩ [] ⟨0⟩).2.next = 1 ∧
    (processFeatures [⟨.point (.v2 0 0), []⟩] [] ⟨0⟩).2.next
      = 0 + List.countP (isFallback []) [⟨.point (.v2 0 0), []⟩] := by
  have h := c1_theorem (.point (.v2 0 0)) [] [] 0 [⟨.point (.v2 0 0), []⟩] rfl rfl
  exact ⟨by simpa using h.1, by simpa using h.2.1, h.2.2⟩

/-- C2 counterexample: with approved candidates `["a", "b"]` and attributes
`a = true`, `b = "x"`, the first valid value is the text `"x"`, but the scan
stops at the boolean and the feature takes the fallback name `"1"` instead. -/
theorem c2_counterexample :
    scanName [("a", .bool true), ("b", .str "x")] ["a", "b"] = none ∧
    (assignLayerName (layerDataOf [("a", .bool true), ("b", .str "x")])
        [("a", .bool true), ("b", .str "x")] ["a", "b"] ⟨0⟩).1.name
      ≠ some (.strName "x") ∧
    (assignLayerName (layerDataOf [("a", .bool true), ("b", .str "x")])
        [("a", .bool true), ("b", .str "x")] ["a", "b"] ⟨0⟩).1.name
      = some (.strName "1") := by
  decide

/-- C2 (amended): the layer-name scan examines the approved fields in priority
order; a missing field, non-finite number, empty text or invalid date is
skipped and the scan continues; the first valid value is formatted (number to
decimal string, text as-is, date to locale string) and used, ending the scan —
except that a defined value of any other kind (a boolean) also ends the scan,
producing no name.  Stated as: the source scan equals the declarative
drop-skipped-then-decide rule. -/
theorem beq_useName_skip (s : String) :
    (ScanOutcome.useName s == ScanOutcome.skipOver) = false := rfl

theorem beq_stop_skip : (ScanOutcome.stopScan == ScanOutcome.skipOver) = false := rfl

theorem beq_skip_skip : (ScanOutcome.skipOver == ScanOutcome.skipOver) = true := rfl

theorem c2_theorem (properties : Props) (candidates : List String) :
    scanName properties candidates = deriveNameSpec properties candidates := by
  induction candidates with
  | nil => rfl
  | cons cand rest ih =>
    rw [scanName, deriveNameSpec, List.dropWhile]
    cases h : lookupProp properties cand with
    | none =>
      simpa [candidateOutcome, h, deriveNameSpec, beq_skip_skip] using ih
    | some v =>
      cases v with
      | num n =>
        cases hf : jsIsFinite n
        · simpa [candidateOutcome, h, hf, deriveNameSpec, beq_skip_skip] using ih
        · simp [candidateOutcome, h, hf, beq_useName_skip]
      | str s =>
        by_cases hs : s.length = 0
        · simpa [candidateOutcome, h, hs, deriveNameSpec, beq_skip_skip] using ih
        · simp [candidateOutcome, h, hs, beq_useName_skip]
      | date d =>
        cases hd : dateIsValid d
        · simpa [candidateOutcome, h, hd, deriveNameSpec, beq_skip_skip] using ih
        · simp [candidateOutcome, h, hd, beq_useName_skip]
      | bool b =>
        simp [candidateOutcome, h, beq_stop_skip]

/-- C7: once both sessions are acquired, every exit of the `Writing` section —
normal completion or an exception thrown by the body — closes the layer-update
session and then the edit session, each exactly once, and in the exception
case the top-level handler only runs after both closes. -/
theorem c7_theorem (bt : List IEvent) (r : Except String Unit)
    (h1 : IEvent.endUpdateEv ∉ bt) (h2 : IEvent.endEditEv ∉ bt) :
    importTrace true (bt, r)
      = ([.beginProgressEv, .infoEv, .propfindEv, .decodeEv, .quickPickEv,
          .beginUpdateEv, .beginEditEv] ++ bt)
        ++ ([.endUpdateEv, .endEditEv]
            ++ (match r with
                | .error _ => [IEvent.uncaughtErrorEv]
                | .ok _ => []) ++ [.endProgressEv]) ∧
    (importTrace true (bt, r)).count .endUpdateEv = 1 ∧
    (importTrace true (bt, r)).count .endEditEv = 1 := by
  have htrace : importTrace true (bt, r)
      = ([.beginProgressEv, .infoEv, .propfindEv, .decodeEv, .quickPickEv,
          .beginUpdateEv, .beginEditEv] ++ bt)
        ++ ([.endUpdateEv, .endEditEv]
            ++ (match r with
                | .error _ => [IEvent.uncaughtErrorEv]
                | .ok _ => []) ++ [.endProgressEv]) := by
    cases r with
    | ok a =>
      simp [importTrace, writingSection, bindTr, emit, tryFinallyTr, tryCatchTr, pureTr]
    | error e =>
      simp [importTrace, writingSection, bindTr, emit, tryFinallyTr, tryCatchTr, pureTr]
  refine ⟨htrace, ?_, ?_⟩
  · rw [htrace]
    cases r <;>
      simp [List.count_append, List.count_cons, List.count_eq_zero_of_not_mem h1]
  · rw [htrace]
    cases r <;>
      simp [List.count_append, List.count_cons, List.count_eq_zero_of_not_mem h2]

/-- Witness for C7: a body that emits nothing and throws. -/
theorem c7_witness :
    importTrace true ([], .error "boom")
      = [.beginProgressEv, .infoEv, .propfindEv, .decodeEv, .quickPickEv,
         .beginUpdateEv, .beginEditEv, .endUpdateEv, .endEditEv,
         .uncaughtErrorEv, .endProgressEv] ∧
    (importTrace true ([], .error "boom")).count .endUpdateEv = 1 ∧
    (importTrace true ([], .error "boom")).count .endEditEv = 1 := by
  have h := c7_theorem [] (.error "boom") (by simp) (by simp)
  exact ⟨by simpa using h.1, h.2.1, h.2.2⟩

/-- C8: a file with an unrecognised extension changes no dataset, its event
trace carries exactly one warning — naming that extension — and the grouping
loop goes on to process the remaining items as if the file were absent. -/
theorem c8_theorem (groups : Groups) (title : String) (bytes : Nat)
    (rest : List WorkspaceItem)
    (h : ALLOWED.contains (title.drop (title.length - 3)) = false) :
    (addToGroups groups title bytes).1 = groups ∧
    (addToGroups groups title bytes).2.filter isExtError
      = [.extErrorEv (title.drop (title.length - 3))] ∧
    extractList groups (.file title bytes :: rest)
      = ((extractList groups rest).1,
         (addToGroups groups title bytes).2 ++ (extractList groups rest).2) := by
  have hmem : title.drop (title.length - 3) ∉ ALLOWED := by simpa using h
  have hadd : addToGroups groups title bytes
      = (groups, [.getEv title, .detailEv title,
                  .extErrorEv (title.drop (title.length - 3))]) := by
    simp [addToGroups, hmem]
  refine ⟨by rw [hadd], by rw [hadd]; rfl, ?_⟩
  rw [extractList, extractItem, hadd]

/-- Witness for C8: one `.txt` file followed by one recognised `.shp` file. -/
theorem c8_witness :
    (addToGroups ([] : Groups) "parcels.txt" 5).1 = ([] : Groups) ∧
    (addToGroups ([] : Groups) "parcels.txt" 5).2.filter isExtError
      = [.extErrorEv "txt"] ∧
    extractList ([] : Groups) [.file "parcels.txt" 5, .file "parcels.shp" 1]
      = ((extractList ([] : Groups) [.file "parcels.shp" 1]).1,
         (addToGroups ([] : Groups) "parcels.txt" 5).2
           ++ (extractList ([] : Groups) [.file "parcels.shp" 1]).2) := by
  have h := c8_theorem ([] : Groups) "parcels.txt" 5 [.file "parcels.shp" 1] (by decide)
  exact ⟨h.1, by simpa using h.2.1, h.2.2⟩

/-- C9 counterexample: `a.txt` is rejected (its extension is not recognised,
and it is stored in no dataset), yet its byte buffer is fetched — `item.get()`
runs before the extension check. -/
theorem c9_counterexample :
    ALLOWED.contains (("a.txt").drop (("a.txt").length - 3)) = false ∧
    (addToGroups ([] : Groups) "a.txt" 7).1 = ([] : Groups) ∧
    IEvent.addLayerEv ∉ ([] : List IEvent) ∧
    GEvent.getEv "a.txt" ∈ (addToGroups ([] : Groups) "a.txt" 7).2 := by
  decide

/-- C9 (amended): the byte buffer of every file is fetched first, before the
extension is examined; a file with an unrecognised extension still has its
buffer fetched, and the buffer is then discarded — the datasets are unchanged. -/
theorem c9_theorem (groups : Groups) (title : String) (bytes : Nat) :
    (addToGroups groups title bytes).2.head? = some (.getEv title) ∧
    (ALLOWED.contains (title.drop (title.length - 3)) = false →
      (addToGroups groups title bytes).1 = groups) := by
  constructor
  · by_cases h : title.drop (title.length - 3) ∈ ALLOWED <;>
      simp [addToGroups, h]
  · intro h
    have hmem : title.drop (title.length - 3) ∉ ALLOWED := by simpa using h
    simp [addToGroups, hmem]

/-- Witness for C9 (amended) on a concrete rejected file. -/
theorem c9_witness :
    (addToGroups ([] : Groups) "b.txt" 3).2.head? = some (.getEv "b.txt") ∧
    (addToGroups ([] : Groups) "b.txt" 3).1 = ([] : Groups) := by
  exact ⟨(c9_theorem ([] : Groups) "b.txt" 3).1,
         (c9_theorem ([] : Groups) "b.txt" 3).2 (by decide)⟩

/-- C10: with no model layout the run ends right after the early `return`:
the trace is exactly begin-progress, the info log, end-progress — no
traversal, no decoding, no user prompt, no write session, no layer or entity
creation (whatever the rest of the run would have done), and no error logged. -/
theorem c10_theorem (body : Tr Unit) :
    importTrace false body = [.beginProgressEv, .infoEv, .endProgressEv] ∧
    (importTrace false body).count .propfindEv = 0 ∧
    (importTrace false body).count .decodeEv = 0 ∧
    (importTrace false body).count .quickPickEv = 0 ∧
    (importTrace false body).count .beginUpdateEv = 0 ∧
    (importTrace false body).count .addLayerEv = 0 ∧
    (importTrace false body).count .addEntityEv = 0 ∧
    (importTrace false body).count .uncaughtErrorEv = 0 := by
  have htrace : importTrace false body
      = [.beginProgressEv, .infoEv, .endProgressEv] := rfl
  rw [htrace]
  exact ⟨rfl, by decide, by decide, by decide, by decide, by decide, by decide, by decide⟩

end Shp
